import Mathlib

/-!
Shallow embedding of the luxen storefront's cart subsystem:
the Local Cart Store (`src/lib/cartStorage.ts`), the auth-change
cart-merge handler, the remote cart call sites and the size
recommendation (`App.tsx`).

Conventions of the embedding:
* quantities are `Int` (JS numbers used as integers by the code),
  prices and measurements are `ℚ` (JS numbers; all constants in the
  program are exactly representable),
* the browser storage slots are explicit state (`CartState`): the
  decoded content of the `cart` key in localStorage / sessionStorage
  plus the module-level `memoryCart`; a Bool per slot says whether
  every access to that slot throws,
* remote table operations are modelled as pure list transformations;
  a failure oracle `Nat → Bool` says which inserts return an error
  (supabase returns `{ data, error }` and never throws).
-/

namespace Luxen

/-- `LocalCartItem` from `cartStorage.ts`. -/
structure LocalCartItem where
  product_name : String
  product_price : ℚ
  quantity : Int
  size : String
  localId : String
deriving DecidableEq

/-- `Omit<LocalCartItem, 'localId'>`: the argument of `addToLocalCart`. -/
structure NewCartItem where
  product_name : String
  product_price : ℚ
  quantity : Int
  size : String
deriving DecidableEq

/-- `{ ...item, localId: newId }` in `addToLocalCart`. -/
def NewCartItem.withId (a : NewCartItem) (newId : String) : LocalCartItem :=
  ⟨a.product_name, a.product_price, a.quantity, a.size, newId⟩

/-- `cart.find(i => i.product_name === item.product_name && i.size === item.size)`
is defined (some line shares the item's pair). -/
def hasPair (cart : List LocalCartItem) (a : NewCartItem) : Bool :=
  cart.any fun i => i.product_name = a.product_name && i.size = a.size

/-- `existingItem.quantity += item.quantity`: bump the quantity of the first
line whose `(product_name, size)` pair matches the added item. -/
def bumpFirst : List LocalCartItem → NewCartItem → List LocalCartItem
  | [], _ => []
  | i :: rest, a =>
    if i.product_name = a.product_name ∧ i.size = a.size then
      { i with quantity := i.quantity + a.quantity } :: rest
    else i :: bumpFirst rest a

/-- The pure core of `addToLocalCart`: dedup on `(product_name, size)`,
else append with the freshly generated id. -/
def addItem (cart : List LocalCartItem) (a : NewCartItem) (newId : String) :
    List LocalCartItem :=
  if hasPair cart a then bumpFirst cart a else cart ++ [a.withId newId]

/-- The pure core of `removeFromLocalCart`:
`cart.filter(item => item.localId !== localId)`. -/
def removeId (cart : List LocalCartItem) (localId : String) : List LocalCartItem :=
  cart.filter fun i => i.localId ≠ localId

/-- `cart.find(i => i.localId === localId)` is defined. -/
def containsId (cart : List LocalCartItem) (localId : String) : Bool :=
  cart.any fun i => i.localId = localId

/-- `item.quantity = quantity` on the first line found by
`cart.find(i => i.localId === localId)`. -/
def setQtyFirst : List LocalCartItem → String → Int → List LocalCartItem
  | [], _, _ => []
  | i :: rest, localId, q =>
    if i.localId = localId then { i with quantity := q } :: rest
    else i :: setQtyFirst rest localId q

/-- Index of the first line with the given `localId`. -/
def firstIdxOf : List LocalCartItem → String → Option Nat
  | [], _ => none
  | i :: rest, localId =>
    if i.localId = localId then some 0 else (firstIdxOf rest localId).map (· + 1)

/-!  The storage fallback chain.  `ls`/`ss` hold the decoded content of the
`cart` key of localStorage / sessionStorage (`none` = key absent), `mem` is
the module-level `memoryCart`.  `lsFails` (resp. `ssFails`) set means every
localStorage (resp. sessionStorage) access throws; the `try/catch` chain of
the source then falls through to the next layer. -/

structure CartState where
  ls : Option (List LocalCartItem)
  ss : Option (List LocalCartItem)
  mem : List LocalCartItem
deriving DecidableEq

/-- `getLocalCart`: try localStorage, on throw try sessionStorage, on throw
return `memoryCart`; an absent key reads as `[]`. -/
def getLocalCartS (lsFails ssFails : Bool) (st : CartState) : List LocalCartItem :=
  if lsFails then
    if ssFails then st.mem else st.ss.getD []
  else st.ls.getD []

/-- `saveLocalCart`: always set `memoryCart`, then try localStorage, on throw
try sessionStorage, on throw only warn. -/
def saveLocalCartS (lsFails ssFails : Bool) (st : CartState)
    (items : List LocalCartItem) : CartState :=
  if lsFails then
    if ssFails then { st with mem := items }
    else { st with mem := items, ss := some items }
  else { st with mem := items, ls := some items }

/-- `addToLocalCart` as a state transformer; `newId` is the value produced by
`generateUUID()`. -/
def addToLocalCartS (lsFails ssFails : Bool) (st : CartState) (a : NewCartItem)
    (newId : String) : CartState :=
  saveLocalCartS lsFails ssFails st (addItem (getLocalCartS lsFails ssFails st) a newId)

/-- `removeFromLocalCart` as a state transformer. -/
def removeFromLocalCartS (lsFails ssFails : Bool) (st : CartState)
    (localId : String) : CartState :=
  saveLocalCartS lsFails ssFails st (removeId (getLocalCartS lsFails ssFails st) localId)

/-- `updateLocalCartQuantity` as a state transformer; the Bool records whether
`saveLocalCart` was invoked (it is called only when the line is found). -/
def updateLocalCartQuantityS (lsFails ssFails : Bool) (st : CartState)
    (localId : String) (q : Int) : CartState × Bool :=
  let cart := getLocalCartS lsFails ssFails st
  if containsId cart localId then
    (saveLocalCartS lsFails ssFails st (setQtyFirst cart localId q), true)
  else (st, false)

/-- `clearLocalCart`: reset `memoryCart`, then try to remove the key from
localStorage, on throw from sessionStorage, on throw only warn. -/
def clearLocalCartS (lsFails ssFails : Bool) (st : CartState) : CartState :=
  if lsFails then
    if ssFails then { st with mem := [] }
    else { st with mem := [], ss := none }
  else { st with mem := [], ls := none }

/-- `updateLocalQuantity` in the `Cart` component (App.tsx): guard
`if (quantity < 1) return;` then call the store's `updateLocalCartQuantity`. -/
def updateLocalQuantity (lsFails ssFails : Bool) (st : CartState)
    (localId : String) (q : Int) : CartState :=
  if q < 1 then st else (updateLocalCartQuantityS lsFails ssFails st localId q).1

/-!  The remote cart: rows of the `cart_items` table. -/

/-- A row of `cart_items` as the client reads and writes it (the
server-assigned `id` and `created_at` play no role in the claims and are
not part of any client-side branch; rows are kept in insertion order). -/
structure RemoteRow where
  user_id : String
  product_name : String
  product_price : ℚ
  quantity : Int
  size : String
deriving DecidableEq

/-- The object literal passed to `supabase.from('cart_items').insert` during
the merge: every field of the local item except `localId`, plus the new
`user_id`. -/
def localToRemote (uid : String) (i : LocalCartItem) : RemoteRow :=
  ⟨uid, i.product_name, i.product_price, i.quantity, i.size⟩

/-- The rows the merge loop's inserts add to the table: insert `k` fails
(returns `{ error }`, adding no row) when `fail k` is set; the loop awaits
each insert and never inspects the error. -/
def insertResults (fail : Nat → Bool) (uid : String) :
    Nat → List LocalCartItem → List RemoteRow
  | _, [] => []
  | k, i :: rest =>
    (if fail k then [] else [localToRemote uid i]) ++ insertResults fail uid (k + 1) rest

/-- Observable outcome of one `onAuthStateChange` callback run:
the local cart afterwards, the table afterwards, how many inserts were
issued, and whether `clearLocalCart()` ran. -/
structure AuthChangeResult where
  localCart : List LocalCartItem
  remote : List RemoteRow
  insertsAttempted : Nat
  clearedLocal : Bool
deriving DecidableEq

/-- The `onAuthStateChange` callback of `AuthProvider` (App.tsx): when
`newUser && !prevUser` and the local cart is non-empty, insert each local
item one at a time under `newUser.id`, then `clearLocalCart()`; otherwise do
nothing to either cart. -/
def authChange (fail : Nat → Bool) (prevUser newUser : Option String)
    (localItems : List LocalCartItem) (remote : List RemoteRow) : AuthChangeResult :=
  match newUser, prevUser with
  | some uid, none =>
    if localItems.length > 0 then
      ⟨[], remote ++ insertResults fail uid 0 localItems, localItems.length, true⟩
    else ⟨localItems, remote, 0, false⟩
  | _, _ => ⟨localItems, remote, 0, false⟩

/-- The authenticated branch of `handleAddToCart` (ProductCard): a plain
`insert` of one `SWEATPANTS` row at price 69.99, quantity 1, in the selected
size — no duplicate check. -/
def handleAddToCartRemote (uid selectedSize : String) (remote : List RemoteRow) :
    List RemoteRow :=
  remote ++ [⟨uid, "SWEATPANTS", 6999 / 100, 1, selectedSize⟩]

/-- `loadCart` (Cart component): `if (!error && data) setItems(data)` — on a
failed read (`res = none`) the displayed items are left as they were. -/
def loadCartItems (items : List RemoteRow) (res : Option (List RemoteRow)) :
    List RemoteRow :=
  match res with
  | some data => data
  | none => items

/-- `handleShopifyCheckout`: `items = data || []` — a failed read is
treated as an empty cart. -/
def checkoutCartItems (res : Option (List RemoteRow)) : List RemoteRow :=
  res.getD []

/-!  The size recommendation (`calculateRecommendedSize` /
`calculateSuggestedSize`, two identical copies in App.tsx). -/

/-- One entry of the `sizeChart` object literal, with the `waist` range
already split on the dash and the inseam read as a number. -/
structure ChartEntry where
  size : String
  waistMin : ℚ
  waistMax : ℚ
  inseam : ℚ
deriving DecidableEq

/-- The `sizeChart` literal, in `Object.entries` order (insertion order). -/
def sizeChart : List ChartEntry :=
  [⟨"XS", 28, 30, 28⟩, ⟨"S", 30, 32, 29⟩, ⟨"M", 32, 34, 30⟩,
   ⟨"L", 34, 36, 31⟩, ⟨"XL", 36, 38, 32⟩]

/-- `waist >= waistMin && waist <= waistMax && Math.abs(inseam - sizeInseam) <= 1.5`. -/
abbrev entryMatches (e : ChartEntry) (waist inseam : ℚ) : Prop :=
  e.waistMin ≤ waist ∧ waist ≤ e.waistMax ∧ |inseam - e.inseam| ≤ 3 / 2

/-- The `for … of Object.entries(sizeChart)` loop with its early `return`. -/
def calcLoop : List ChartEntry → ℚ → ℚ → String
  | [], _, _ => "M"
  | e :: rest, waist, inseam =>
    if entryMatches e waist inseam then e.size else calcLoop rest waist inseam

/-- `calculateRecommendedSize(waist, inseam)`. -/
def calculateRecommendedSize (waist inseam : ℚ) : String :=
  calcLoop sizeChart waist inseam

/-- The fixed size order, as the spec words it. -/
def sizeOrder : List String := ["XS", "S", "M", "L", "XL"]

/-- Chart entry for a size name. -/
def chartFor (s : String) : Option ChartEntry :=
  sizeChart.find? fun e => e.size = s

/-- Spec-side formulation: the first size in the fixed order whose chart
waist range contains the waist and whose chart inseam is within 1.5 of the
given inseam; `M` when no size matches. -/
def specRecommendedSize (waist inseam : ℚ) : String :=
  (sizeOrder.find? fun s =>
    (chartFor s).any fun e => decide (entryMatches e waist inseam)).getD "M"

/-!  Dedup invariant vocabulary. -/

/-- The `(productName, size)` pair of a local line. -/
def pairKey (i : LocalCartItem) : String × String :=
  (i.product_name, i.size)

/-- At most one line per distinct `(productName, size)` pair. -/
def dedupOK (cart : List LocalCartItem) : Prop :=
  cart.Pairwise fun a b => pairKey a ≠ pairKey b

/-- At most one row per distinct `(productName, size)` pair. -/
def remoteDedupOK (rows : List RemoteRow) : Prop :=
  rows.Pairwise fun a b => (a.product_name, a.size) ≠ (b.product_name, b.size)

/-- Total quantity held by the cart for one `(productName, size)` pair. -/
def qtyOf (cart : List LocalCartItem) (p s : String) : Int :=
  (cart.filter fun i => i.product_name = p && i.size = s).foldr
    (fun i acc => i.quantity + acc) 0

/-- Total quantity a list of `add` calls requests for one pair. -/
def addsQty (adds : List NewCartItem) (p s : String) : Int :=
  (adds.filter fun a => a.product_name = p && a.size = s).foldr
    (fun a acc => a.quantity + acc) 0

/-- Run a list of `addToLocalCart` calls on a plain list; `ids k` is the id
`generateUUID()` hands to the `k`-th call. -/
def runAdds (ids : Nat → String) : Nat → List LocalCartItem → List NewCartItem →
    List LocalCartItem
  | _, cart, [] => cart
  | k, cart, a :: rest => runAdds ids (k + 1) (addItem cart a (ids k)) rest

/-!  Operation language for the storage-fallback refinement claim. -/

/-- One Local Cart Store mutation. -/
inductive CartOp where
  | add (a : NewCartItem) (newId : String)
  | remove (localId : String)
  | update (localId : String) (q : Int)
  | clear

/-- A mutation as the store implements it, storage chain included. -/
def applyOpS (lsFails ssFails : Bool) (st : CartState) : CartOp → CartState
  | .add a newId => addToLocalCartS lsFails ssFails st a newId
  | .remove localId => removeFromLocalCartS lsFails ssFails st localId
  | .update localId q => (updateLocalCartQuantityS lsFails ssFails st localId q).1
  | .clear => clearLocalCartS lsFails ssFails st

/-- The same mutation applied to a plain in-memory list. -/
def applyOpPure (cart : List LocalCartItem) : CartOp → List LocalCartItem
  | .add a newId => addItem cart a newId
  | .remove localId => removeId cart localId
  | .update localId q => if containsId cart localId then setQtyFirst cart localId q else cart
  | .clear => []

/-!  Helper lemmas. -/

/-- With no insert failing, the merge loop adds exactly the image of the
local list under `localToRemote`. -/
lemma insertResults_noFail (uid : String) :
    ∀ (k : Nat) (items : List LocalCartItem),
      insertResults (fun _ => false) uid k items = items.map (localToRemote uid)
  | _, [] => rfl
  | k, i :: rest => by
    simp [insertResults, insertResults_noFail uid (k + 1) rest]

/-- C1: On a Guest→Authenticated transition, the handler issues one remote
insert per local item, in the local list's original order, each insert
preserving `product_name`, `product_price`, `quantity` and `size` and
discarding `localId`; it then clears the local cart, and when the local cart
is empty it issues no insert and no clear. -/
theorem merge_inserts_each_item_in_order_then_clears (uid : String)
    (items : List LocalCartItem) (remote : List RemoteRow) :
    authChange (fun _ => false) none (some uid) items remote =
      ⟨[], remote ++ items.map (localToRemote uid), items.length, !items.isEmpty⟩ ∧
    ∀ i : LocalCartItem,
      (localToRemote uid i).product_name = i.product_name ∧
      (localToRemote uid i).product_price = i.product_price ∧
      (localToRemote uid i).quantity = i.quantity ∧
      (localToRemote uid i).size = i.size ∧
      (localToRemote uid i).user_id = uid := by
  constructor
  · cases items with
    | nil => simp [authChange]
    | cons a rest => simp [authChange, insertResults_noFail]
  · exact fun i => ⟨rfl, rfl, rfl, rfl, rfl⟩

/-- C2: A single Guest→Authenticated transition inserts exactly N rows and
clears the local cart; any later transition whose previous identity already
has a non-null user (e.g. a token refresh, Authenticated→Authenticated)
issues zero inserts and no clear, leaving both carts untouched. -/
theorem merge_runs_once_per_login (uid : String) (items : List LocalCartItem)
    (remote : List RemoteRow) :
    (authChange (fun _ => false) none (some uid) items remote).localCart = [] ∧
    (authChange (fun _ => false) none (some uid) items remote).remote =
      remote ++ items.map (localToRemote uid) ∧
    (authChange (fun _ => false) none (some uid) items remote).insertsAttempted =
      items.length ∧
    ∀ (lc : List LocalCartItem) (r : List RemoteRow),
      authChange (fun _ => false) (some uid) (some uid) lc r = ⟨lc, r, 0, false⟩ := by
  have h := (merge_inserts_each_item_in_order_then_clears uid items remote).1
  rw [h]
  exact ⟨rfl, rfl, rfl, fun lc r => rfl⟩

/-- C5: Even when some individual inserts fail during the merge, the handler
attempts every item (all N inserts are issued) and still clears the local
cart, so the local cart ends empty regardless of which inserts failed. -/
theorem merge_clears_locally_despite_insert_failures (fail : Nat → Bool)
    (uid : String) (items : List LocalCartItem) (remote : List RemoteRow)
    (h : items ≠ []) :
    (authChange fail none (some uid) items remote).localCart = [] ∧
    (authChange fail none (some uid) items remote).insertsAttempted = items.length ∧
    (authChange fail none (some uid) items remote).clearedLocal = true := by
  cases items with
  | nil => exact absurd rfl h
  | cons a rest => refine ⟨?_, ?_, ?_⟩ <;> simp [authChange]

/-- Witness for C5: one-item cart whose single insert fails; the local cart
still ends empty, with the one insert attempted and the clear performed. -/
theorem merge_clears_locally_despite_insert_failures_witness :
    (authChange (fun k => decide (k = 0)) none (some "u1")
        [⟨"SWEATPANTS", 6999 / 100, 2, "L", "id0"⟩] []).localCart = [] ∧
    (authChange (fun k => decide (k = 0)) none (some "u1")
        [⟨"SWEATPANTS", 6999 / 100, 2, "L", "id0"⟩] []).insertsAttempted = 1 ∧
    (authChange (fun k => decide (k = 0)) none (some "u1")
        [⟨"SWEATPANTS", 6999 / 100, 2, "L", "id0"⟩] []).clearedLocal = true :=
  merge_clears_locally_despite_insert_failures (fun k => decide (k = 0)) "u1"
    [⟨"SWEATPANTS", 6999 / 100, 2, "L", "id0"⟩] [] (List.cons_ne_nil _ _)

/-- C4: The user-facing quantity update (`updateLocalQuantity`, the only
caller of the store's `updateLocalCartQuantity`) is a no-op for any
quantity below 1: the whole cart state is left unchanged. -/
theorem update_quantity_below_one_is_noop (lsFails ssFails : Bool)
    (st : CartState) (localId : String) (q : Int) (h : q < 1) :
    updateLocalQuantity lsFails ssFails st localId q = st := by
  simp [updateLocalQuantity, h]

/-- Witness for C4: updating an existing line of quantity 2 to quantity 0
leaves the state unchanged. -/
theorem update_quantity_below_one_is_noop_witness :
    updateLocalQuantity false false
        ⟨some [⟨"SWEATPANTS", 6999 / 100, 2, "M", "id0"⟩], none,
          [⟨"SWEATPANTS", 6999 / 100, 2, "M", "id0"⟩]⟩ "id0" 0 =
      ⟨some [⟨"SWEATPANTS", 6999 / 100, 2, "M", "id0"⟩], none,
        [⟨"SWEATPANTS", 6999 / 100, 2, "M", "id0"⟩]⟩ :=
  update_quantity_below_one_is_noop false false _ "id0" 0 (by decide)

/-- Counterexample for C6: in the cart view (`loadCart`), a failed read
leaves the previously loaded items on display — the caller observes the old
non-empty list, not an empty sequence. -/
theorem failed_cart_load_shows_previous_items :
    loadCartItems [⟨"u1", "SWEATPANTS", 6999 / 100, 1, "M"⟩] none =
      [⟨"u1", "SWEATPANTS", 6999 / 100, 1, "M"⟩] ∧
    [(⟨"u1", "SWEATPANTS", 6999 / 100, 1, "M"⟩ : RemoteRow)] ≠ [] :=
  ⟨rfl, by simp⟩

/-- C6 amended: no call site propagates a failed read; the checkout path
coerces it to an empty list, while the cart view keeps whatever items it
already displayed (an empty view only when nothing had been loaded). -/
theorem failed_list_read_never_propagates (items : List RemoteRow) :
    loadCartItems items none = items ∧
    checkoutCartItems none = [] ∧
    loadCartItems [] none = [] :=
  ⟨rfl, rfl, rfl⟩

/-- C8: with waist 33 and inseam 30 the recommendation resolves to `M`. -/
theorem waist33_inseam30_recommends_M : calculateRecommendedSize 33 30 = "M" := by
  norm_num [calculateRecommendedSize, calcLoop, sizeChart, entryMatches]

/-- When every storage access throws, each mutation's effect on `memoryCart`
is exactly the pure list mutation. -/
lemma applyOpS_mem_throwing (st : CartState) (op : CartOp) :
    (applyOpS true true st op).mem = applyOpPure st.mem op := by
  cases op with
  | add a newId =>
    simp [applyOpS, applyOpPure, addToLocalCartS, saveLocalCartS, getLocalCartS]
  | remove localId =>
    simp [applyOpS, applyOpPure, removeFromLocalCartS, saveLocalCartS, getLocalCartS]
  | update localId q =>
    by_cases h : containsId st.mem localId <;>
      simp [applyOpS, applyOpPure, updateLocalCartQuantityS, saveLocalCartS,
        getLocalCartS, h]
  | clear =>
    simp [applyOpS, applyOpPure, clearLocalCartS]

/-- C7: if every durable-storage access throws (localStorage and
sessionStorage alike), then any sequence of add / remove / updateQuantity /
clear operations leaves `list()` observing exactly what the same operations
would produce on a plain in-memory list; every operation is a total function
(the catch-all fallback absorbs the storage errors), so none throws. -/
theorem storage_throwing_behaves_as_memory_list (ops : List CartOp)
    (st : CartState) :
    getLocalCartS true true (ops.foldl (applyOpS true true) st) =
      ops.foldl applyOpPure (getLocalCartS true true st) := by
  induction ops generalizing st with
  | nil => rfl
  | cons op rest ih =>
    have hmem : getLocalCartS true true (applyOpS true true st op) =
        applyOpPure (getLocalCartS true true st) op := by
      simpa [getLocalCartS] using applyOpS_mem_throwing st op
    simp [List.foldl_cons, ih, hmem]

/-- A line found by index is found by `containsId`. -/
lemma firstIdxOf_some_contains :
    ∀ (cart : List LocalCartItem) (localId : String) (k : Nat),
      firstIdxOf cart localId = some k → containsId cart localId = true := by
  intro cart
  induction cart with
  | nil => intro localId k h; simp [firstIdxOf] at h
  | cons i rest ih =>
    intro localId k h
    by_cases hi : i.localId = localId
    · simp [containsId, hi]
    · simp only [firstIdxOf, if_neg hi, Option.map_eq_some'] at h
      obtain ⟨k0, hk0, _⟩ := h
      simp [containsId, List.any_cons, ih localId k0 hk0]
      exact Or.inr (by simpa [containsId] using ih localId k0 hk0)

/-- Setting the quantity of the first line with a given id is `List.set` at
that line's index, the new line sharing every other field with the old. -/
lemma setQtyFirst_eq_set :
    ∀ (cart : List LocalCartItem) (localId : String) (q : Int) (k : Nat)
      (x : LocalCartItem), firstIdxOf cart localId = some k →
      cart.get? k = some x →
      setQtyFirst cart localId q = cart.set k { x with quantity := q } := by
  intro cart
  induction cart with
  | nil => intro localId q k x h _; simp [firstIdxOf] at h
  | cons i rest ih =>
    intro localId q k x h hx
    by_cases hi : i.localId = localId
    · simp only [firstIdxOf, if_pos hi, Option.some_inj] at h
      subst h
      simp only [List.get?] at hx
      cases hx
      simp [setQtyFirst, if_pos hi]
    · simp only [firstIdxOf, if_neg hi, Option.map_eq_some'] at h
      obtain ⟨k0, hk0, hk⟩ := h
      subst hk
      simp only [List.get?] at hx
      simp [setQtyFirst, if_neg hi, List.set, ih localId q k0 x hk0 hx]

/-- C10: `updateLocalCartQuantity` with an id matching no line returns the
state untouched and never calls `saveLocalCart`; with a matching line it
saves the cart with only the first matching line's quantity replaced —
every other line, and the order of lines, unchanged (`List.set`). -/
theorem update_quantity_frame_conditions (lsFails ssFails : Bool)
    (st : CartState) (localId : String) (q : Int) :
    (containsId (getLocalCartS lsFails ssFails st) localId = false →
      updateLocalCartQuantityS lsFails ssFails st localId q = (st, false)) ∧
    ∀ (k : Nat) (x : LocalCartItem),
      firstIdxOf (getLocalCartS lsFails ssFails st) localId = some k →
      (getLocalCartS lsFails ssFails st).get? k = some x →
      updateLocalCartQuantityS lsFails ssFails st localId q =
        (saveLocalCartS lsFails ssFails st
          ((getLocalCartS lsFails ssFails st).set k { x with quantity := q }), true) := by
  constructor
  · intro h
    simp [updateLocalCartQuantityS, h]
  · intro k x hk hx
    have hc := firstIdxOf_some_contains _ localId k hk
    simp [updateLocalCartQuantityS, hc,
      setQtyFirst_eq_set _ localId q k x hk hx]

/-- Witness for C10: a two-line cart; an unknown id leaves the state as is
with no save, while updating the second line's quantity to 5 saves the cart
with only that line replaced. -/
theorem update_quantity_frame_conditions_witness :
    updateLocalCartQuantityS true true
        ⟨none, none, [⟨"P", 1, 1, "M", "a"⟩, ⟨"P", 1, 2, "L", "b"⟩]⟩ "zz" 5 =
      (⟨none, none, [⟨"P", 1, 1, "M", "a"⟩, ⟨"P", 1, 2, "L", "b"⟩]⟩, false) ∧
    updateLocalCartQuantityS true true
        ⟨none, none, [⟨"P", 1, 1, "M", "a"⟩, ⟨"P", 1, 2, "L", "b"⟩]⟩ "b" 5 =
      (saveLocalCartS true true
          ⟨none, none, [⟨"P", 1, 1, "M", "a"⟩, ⟨"P", 1, 2, "L", "b"⟩]⟩
          ([⟨"P", 1, 1, "M", "a"⟩, ⟨"P", 1, 2, "L", "b"⟩].set 1
            { (⟨"P", 1, 2, "L", "b"⟩ : LocalCartItem) with quantity := 5 }), true) :=
  ⟨(update_quantity_frame_conditions true true _ "zz" 5).1 (by decide),
   (update_quantity_frame_conditions true true _ "b" 5).2 1
     ⟨"P", 1, 2, "L", "b"⟩ (by decide) (by decide)⟩

/-- Bumping a quantity never changes the `(productName, size)` pairs. -/
lemma pairKey_map_bumpFirst :
    ∀ (cart : List LocalCartItem) (a : NewCartItem),
      (bumpFirst cart a).map pairKey = cart.map pairKey := by
  intro cart a
  induction cart with
  | nil => rfl
  | cons i rest ih =>
    by_cases h : i.product_name = a.product_name ∧ i.size = a.size <;>
      simp [bumpFirst, h, pairKey, ih]

/-- `hasPair` read as a proposition. -/
lemma hasPair_iff (cart : List LocalCartItem) (a : NewCartItem) :
    hasPair cart a = true ↔
      ∃ i ∈ cart, i.product_name = a.product_name ∧ i.size = a.size := by
  simp [hasPair, List.any_eq_true]

/-- `addItem` preserves the at-most-one-line-per-pair invariant. -/
lemma dedupOK_addItem (cart : List LocalCartItem) (a : NewCartItem)
    (newId : String) (h : dedupOK cart) : dedupOK (addItem cart a newId) := by
  unfold addItem
  by_cases hp : hasPair cart a
  · rw [if_pos hp]
    have hmap : (bumpFirst cart a).map pairKey = cart.map pairKey :=
      pairKey_map_bumpFirst cart a
    unfold dedupOK at h ⊢
    rw [← List.pairwise_map] at h ⊢
    rw [hmap]
    exact h
  · rw [if_neg hp]
    unfold dedupOK
    rw [List.pairwise_append]
    refine ⟨h, List.pairwise_singleton _ _, ?_⟩
    intro x hx y hy
    simp only [List.mem_singleton] at hy
    subst hy
    intro hkey
    apply hp
    rw [hasPair_iff]
    refine ⟨x, hx, ?_⟩
    have h1 : x.product_name = a.product_name := congrArg Prod.fst hkey
    have h2 : x.size = a.size := congrArg Prod.snd hkey
    exact ⟨h1, h2⟩

/-- Per-pair quantity of a cons cell. -/
lemma qtyOf_cons (i : LocalCartItem) (rest : List LocalCartItem) (p s : String) :
    qtyOf (i :: rest) p s =
      (if i.product_name = p ∧ i.size = s then i.quantity else 0) + qtyOf rest p s := by
  by_cases h : i.product_name = p ∧ i.size = s <;>
    simp [qtyOf, List.filter_cons, h]

/-- Per-pair quantity of an appended cart splits. -/
lemma qtyOf_append :
    ∀ (l1 l2 : List LocalCartItem) (p s : String),
      qtyOf (l1 ++ l2) p s = qtyOf l1 p s + qtyOf l2 p s := by
  intro l1 l2 p s
  induction l1 with
  | nil => simp [qtyOf]
  | cons i rest ih =>
    rw [List.cons_append, qtyOf_cons, qtyOf_cons, ih]
    omega

/-- Bumping the first matching line adds the new quantity to the bumped
pair's total and leaves every other pair's total unchanged. -/
lemma qtyOf_bumpFirst :
    ∀ (cart : List LocalCartItem) (a : NewCartItem),
      hasPair cart a = true → ∀ p s : String,
        qtyOf (bumpFirst cart a) p s =
          qtyOf cart p s +
            (if a.product_name = p ∧ a.size = s then a.quantity else 0) := by
  intro cart
  induction cart with
  | nil => intro a h; simp [hasPair] at h
  | cons i rest ih =>
    intro a h p s
    by_cases hi : i.product_name = a.product_name ∧ i.size = a.size
    · rw [bumpFirst, if_pos hi, qtyOf_cons, qtyOf_cons]
      by_cases hps : i.product_name = p ∧ i.size = s
      · have hap : a.product_name = p ∧ a.size = s :=
          ⟨hi.1 ▸ hps.1, hi.2 ▸ hps.2⟩
        simp only [if_pos hps, if_pos hap]
        omega
      · have hap : ¬ (a.product_name = p ∧ a.size = s) := by
          intro hap
          exact hps ⟨hi.1.trans hap.1, hi.2.trans hap.2⟩
        simp only [if_neg hps, if_neg hap]
        omega
    · have hrest : hasPair rest a = true := by
        rcases (hasPair_iff (i :: rest) a).mp h with ⟨x, hx, hxa⟩
        rcases List.mem_cons.mp hx with rfl | hx'
        · exact absurd hxa hi
        · exact (hasPair_iff rest a).mpr ⟨x, hx', hxa⟩
      rw [bumpFirst, if_neg hi, qtyOf_cons, qtyOf_cons, ih a hrest p s]
      omega

/-- One `addToLocalCart` adds its quantity to its pair's total and leaves
every other pair's total unchanged. -/
lemma qtyOf_addItem (cart : List LocalCartItem) (a : NewCartItem)
    (newId : String) (p s : String) :
    qtyOf (addItem cart a newId) p s =
      qtyOf cart p s +
        (if a.product_name = p ∧ a.size = s then a.quantity else 0) := by
  unfold addItem
  by_cases hp : hasPair cart a
  · rw [if_pos hp]
    exact qtyOf_bumpFirst cart a hp p s
  · rw [if_neg hp, qtyOf_append, qtyOf_cons]
    simp [qtyOf, NewCartItem.withId]

/-- Per-pair requested quantity of a cons cell of add calls. -/
lemma addsQty_cons (a : NewCartItem) (rest : List NewCartItem) (p s : String) :
    addsQty (a :: rest) p s =
      (if a.product_name = p ∧ a.size = s then a.quantity else 0) + addsQty rest p s := by
  by_cases h : a.product_name = p ∧ a.size = s <;>
    simp [addsQty, List.filter_cons, h]

/-- Running a list of adds keeps the dedup invariant and accumulates each
pair's quantity. -/
lemma runAdds_props (ids : Nat → String) :
    ∀ (adds : List NewCartItem) (k : Nat) (cart : List LocalCartItem),
      dedupOK cart →
      dedupOK (runAdds ids k cart adds) ∧
      ∀ p s : String,
        qtyOf (runAdds ids k cart adds) p s = qtyOf cart p s + addsQty adds p s := by
  intro adds
  induction adds with
  | nil =>
    intro k cart h
    refine ⟨h, fun p s => ?_⟩
    simp [runAdds, addsQty]
  | cons a rest ih =>
    intro k cart h
    have h1 := dedupOK_addItem cart a (ids k) h
    obtain ⟨hd, hq⟩ := ih (k + 1) (addItem cart a (ids k)) h1
    have hstep : runAdds ids k cart (a :: rest) =
        runAdds ids (k + 1) (addItem cart a (ids k)) rest := rfl
    refine ⟨hstep ▸ hd, fun p s => ?_⟩
    rw [hstep, hq p s, qtyOf_addItem, addsQty_cons]
    omega

/-- Counterexample for C3: two authenticated add-to-cart calls for the same
`(SWEATPANTS, M)` pair leave the remote cart with two separate rows for that
pair — the remote cart does not satisfy the one-line-per-pair invariant. -/
theorem remote_add_duplicates_same_pair :
    ¬ remoteDedupOK
        (handleAddToCartRemote "u1" "M" (handleAddToCartRemote "u1" "M" [])) := by
  simp [remoteDedupOK, handleAddToCartRemote, List.pairwise_cons]

/-- C3 amended: every sequence of local adds leaves at most one line per
distinct `(productName, size)` pair, each pair's line quantity being the sum
of the quantities added for it; the remote add, by contrast, is a plain
insert that appends a fresh row whatever rows exist. -/
theorem local_adds_dedup_remote_add_appends (ids : Nat → String)
    (adds : List NewCartItem) :
    dedupOK (runAdds ids 0 [] adds) ∧
    (∀ p s : String, qtyOf (runAdds ids 0 [] adds) p s = addsQty adds p s) ∧
    ∀ (uid selectedSize : String) (remote : List RemoteRow),
      handleAddToCartRemote uid selectedSize remote =
        remote ++ [⟨uid, "SWEATPANTS", 6999 / 100, 1, selectedSize⟩] := by
  obtain ⟨hd, hq⟩ := runAdds_props ids adds 0 [] (by simp [dedupOK])
  refine ⟨hd, fun p s => ?_, fun _ _ _ => rfl⟩
  have := hq p s
  simpa [qtyOf] using this

/-- C9: the recommendation equals the first size in the order XS, S, M, L,
XL whose chart waist range contains the waist and whose chart inseam is
within 1.5 of the given inseam, defaulting to `M` when none matches; on the
shared range boundaries (waist 30, 32, 34, 36) an inseam matching the
smaller size's chart resolves to the smaller of the two adjacent sizes. -/
theorem recommended_size_is_first_match (waist inseam : ℚ) :
    calculateRecommendedSize waist inseam = specRecommendedSize waist inseam ∧
    (|inseam - 28| ≤ 3 / 2 → calculateRecommendedSize 30 inseam = "XS") ∧
    (|inseam - 29| ≤ 3 / 2 → calculateRecommendedSize 32 inseam = "S") ∧
    (|inseam - 30| ≤ 3 / 2 → calculateRecommendedSize 34 inseam = "M") ∧
    (|inseam - 31| ≤ 3 / 2 → calculateRecommendedSize 36 inseam = "L") := by
  refine ⟨?_, ?_, ?_, ?_, ?_⟩
  · by_cases h1 : entryMatches ⟨"XS", 28, 30, 28⟩ waist inseam <;>
    by_cases h2 : entryMatches ⟨"S", 30, 32, 29⟩ waist inseam <;>
    by_cases h3 : entryMatches ⟨"M", 32, 34, 30⟩ waist inseam <;>
    by_cases h4 : entryMatches ⟨"L", 34, 36, 31⟩ waist inseam <;>
    by_cases h5 : entryMatches ⟨"XL", 36, 38, 32⟩ waist inseam <;>
    simp [calculateRecommendedSize, calcLoop, sizeChart, specRecommendedSize,
      sizeOrder, chartFor, h1, h2, h3, h4, h5]
  · intro h
    have hm : entryMatches ⟨"XS", 28, 30, 28⟩ 30 inseam :=
      ⟨by norm_num, by norm_num, h⟩
    simp [calculateRecommendedSize, calcLoop, sizeChart, hm]
  · intro h
    have hxs : ¬ entryMatches ⟨"XS", 28, 30, 28⟩ 32 inseam := by
      rintro ⟨-, h2, -⟩; norm_num at h2
    have hm : entryMatches ⟨"S", 30, 32, 29⟩ 32 inseam :=
      ⟨by norm_num, by norm_num, h⟩
    simp [calculateRecommendedSize, calcLoop, sizeChart, hxs, hm]
  · intro h
    have hxs : ¬ entryMatches ⟨"XS", 28, 30, 28⟩ 34 inseam := by
      rintro ⟨-, h2, -⟩; norm_num at h2
    have hs : ¬ entryMatches ⟨"S", 30, 32, 29⟩ 34 inseam := by
      rintro ⟨-, h2, -⟩; norm_num at h2
    have hm : entryMatches ⟨"M", 32, 34, 30⟩ 34 inseam :=
      ⟨by norm_num, by norm_num, h⟩
    simp [calculateRecommendedSize, calcLoop, sizeChart, hxs, hs, hm]
  · intro h
    have hxs : ¬ entryMatches ⟨"XS", 28, 30, 28⟩ 36 inseam := by
      rintro ⟨-, h2, -⟩; norm_num at h2
    have hs : ¬ entryMatches ⟨"S", 30, 32, 29⟩ 36 inseam := by
      rintro ⟨-, h2, -⟩; norm_num at h2
    have hm2 : ¬ entryMatches ⟨"M", 32, 34, 30⟩ 36 inseam := by
      rintro ⟨-, h2, -⟩; norm_num at h2
    have hm : entryMatches ⟨"L", 34, 36, 31⟩ 36 inseam :=
      ⟨by norm_num, by norm_num, h⟩
    simp [calculateRecommendedSize, calcLoop, sizeChart, hxs, hs, hm2, hm]

/-- Witness for C9: each boundary waist with the smaller size's chart
inseam resolves to the smaller of the two adjacent sizes. -/
theorem recommended_size_is_first_match_witness :
    calculateRecommendedSize 30 28 = "XS" ∧
    calculateRecommendedSize 32 29 = "S" ∧
    calculateRecommendedSize 34 30 = "M" ∧
    calculateRecommendedSize 36 31 = "L" :=
  ⟨(recommended_size_is_first_match 30 28).2.1 (by norm_num),
   (recommended_size_is_first_match 32 29).2.2.1 (by norm_num),
   (recommended_size_is_first_match 34 30).2.2.2.1 (by norm_num),
   (recommended_size_is_first_match 36 31).2.2.2.2 (by norm_num)⟩

end Luxen
